import Mathlib

/-!
Shallow embedding of the lumino/phosphor sources

  * src/src/widgets/src/title.ts            (class Title)
  * src/packages/datagrid/src/datamodel.ts  (IDataModel / DataModel)

Conventions of the embedding:

  * The JS object `_dataset` (string keys, string values, unique keys) is an
    association list `List (String × String)`; property read `d[k]` is
    `dsLookup`, assignment `d[k] = v` is `dsInsert` (replace in place or
    append), `delete d[k]` is `dsErase`.
  * The JS expression `x || ''` on an optional string read is `jsOrEmpty`;
    JS truthiness of a string value is `v ≠ ""`.
  * A signal emission is observable: a mutating method returns the new state
    paired with the number of `emit` calls it performed (for `Title`, whose
    payload is `undefined`), or with the list of deliveries (for `DataModel`).
  * JS numbers used as indices are modelled as `Int`.
-/

/-- Lookup of a string key in a JS-object-as-association-list: `d[k]`,
`none` standing for `undefined`. -/
def dsLookup : List (String × String) → String → Option String
  | [], _ => none
  | kv :: rest, k => if kv.1 = k then some kv.2 else dsLookup rest k

/-- Assignment `d[k] = v` on a JS object: replace the binding in place if the
key is present, append it otherwise. -/
def dsInsert : List (String × String) → String → String → List (String × String)
  | [], k, v => [(k, v)]
  | kv :: rest, k, v => if kv.1 = k then (k, v) :: rest else kv :: dsInsert rest k v

/-- Deletion `delete d[k]` on a JS object: drop the binding for `k` (JS object
keys are unique, so dropping every pair with key `k` is the same operation). -/
def dsErase : List (String × String) → String → List (String × String)
  | [], _ => []
  | kv :: rest, k => if kv.1 = k then dsErase rest k else kv :: dsErase rest k

/-- The JS read `d[k] || ''`: an absent key (`undefined`) and the falsy empty
string both read as `""`. -/
def jsOrEmpty : Option String → String
  | some v => if v = "" then "" else v
  | none => ""

/-- State of a `Title<T>` object (src/src/widgets/src/title.ts): the owner
reference plus the six scalar fields and the auxiliary dataset. -/
structure Title (T : Type) where
  owner : T
  label : String
  mnemonic : Int
  icon : String
  caption : String
  className : String
  closable : Bool
  dataset : List (String × String)

/-- The options object `Title.IOptions<T>`: the owner plus optional initial
values for every field. -/
structure Title.IOptions (T : Type) where
  owner : T
  label : Option String := none
  mnemonic : Option Int := none
  icon : Option String := none
  caption : Option String := none
  className : Option String := none
  closable : Option Bool := none
  dataset : Option (List (String × String)) := none

/-- The constructor's dataset loop: `for key in options.dataset` storing only
truthy (non-empty) values into the initially empty `_dataset`. -/
def initDataset : List (String × String) → List (String × String) → List (String × String)
  | d, [] => d
  | d, kv :: rest => initDataset (if kv.2 ≠ "" then dsInsert d kv.1 kv.2 else d) rest

/-- The `Title` constructor: each provided option overrides the field
initializer defaults (`''`, `-1`, `false`, empty dataset); the constructor
contains no `emit` call, so its emission count is 0. -/
def Title.ofOptions {T : Type} (opts : Title.IOptions T) : Title T × Nat :=
  ({ owner := opts.owner
     label := opts.label.getD ""
     mnemonic := opts.mnemonic.getD (-1)
     icon := opts.icon.getD ""
     caption := opts.caption.getD ""
     className := opts.className.getD ""
     closable := opts.closable.getD false
     dataset := initDataset [] (opts.dataset.getD []) }, 0)

/-- Setter `title.label = value`: compare, assign, notify on change. -/
def Title.setLabel {T : Type} (t : Title T) (value : String) : Title T × Nat :=
  if t.label = value then (t, 0) else ({ t with label := value }, 1)

/-- Setter `title.mnemonic = value`. -/
def Title.setMnemonic {T : Type} (t : Title T) (value : Int) : Title T × Nat :=
  if t.mnemonic = value then (t, 0) else ({ t with mnemonic := value }, 1)

/-- Setter `title.icon = value`. -/
def Title.setIcon {T : Type} (t : Title T) (value : String) : Title T × Nat :=
  if t.icon = value then (t, 0) else ({ t with icon := value }, 1)

/-- Setter `title.caption = value`. -/
def Title.setCaption {T : Type} (t : Title T) (value : String) : Title T × Nat :=
  if t.caption = value then (t, 0) else ({ t with caption := value }, 1)

/-- Setter `title.className = value`. -/
def Title.setClassName {T : Type} (t : Title T) (value : String) : Title T × Nat :=
  if t.className = value then (t, 0) else ({ t with className := value }, 1)

/-- Setter `title.closable = value`. -/
def Title.setClosable {T : Type} (t : Title T) (value : Bool) : Title T × Nat :=
  if t.closable = value then (t, 0) else ({ t with closable := value }, 1)

/-- `title.getData(key)`: `this._dataset[key] || ''`. -/
def Title.getData {T : Type} (t : Title T) (key : String) : String :=
  jsOrEmpty (dsLookup t.dataset key)

/-- `title.setData(key, value)`: no-op when the value equals the current read
of the key; otherwise store a truthy value or delete on the empty string, and
emit once. -/
def Title.setData {T : Type} (t : Title T) (key value : String) : Title T × Nat :=
  if value = jsOrEmpty (dsLookup t.dataset key) then (t, 0)
  else if value ≠ "" then ({ t with dataset := dsInsert t.dataset key value }, 1)
  else ({ t with dataset := dsErase t.dataset key }, 1)

/-- The loop body of `title.updateData(values)`: the dataset and the `changed`
flag evolve over the key/value pairs in iteration order. -/
def updateLoop (d : List (String × String)) (c : Bool) :
    List (String × String) → List (String × String) × Bool
  | [] => (d, c)
  | kv :: rest =>
    if kv.2 = jsOrEmpty (dsLookup d kv.1) then updateLoop d c rest
    else if kv.2 ≠ "" then updateLoop (dsInsert d kv.1 kv.2) true rest
    else updateLoop (dsErase d kv.1) true rest

/-- `title.updateData(values)`: run the loop starting from the current dataset
with `changed = false`, then emit exactly once if the flag was set. -/
def Title.updateData {T : Type} (t : Title T) (values : List (String × String)) :
    Title T × Nat :=
  let r := updateLoop t.dataset false values
  ({ t with dataset := r.1 }, if r.2 then 1 else 0)

/-- Datasets reachable through the `Title` API never store the empty string as
a value (the constructor and both writers skip or delete falsy values). -/
def dsWF (d : List (String × String)) : Prop := ∀ kv ∈ d, kv.2 ≠ ""

/-!
src/packages/datagrid/src/datamodel.ts
-/

/-- Which axis a sectionwise change event concerns: the tag pairs
`'rows-inserted' | 'cols-inserted'` (and likewise removed/moved). -/
inductive SectionKind where
  | rows
  | cols
deriving DecidableEq, Repr

/-- The discriminated union `IDataModel.ChangedArgs`: exactly the five arg
shapes `ISectionsInsertedArgs`, `ISectionsRemovedArgs`, `ISectionsMovedArgs`,
`ICellsChangedArgs` and `IModelChangedArgs`, each with exactly the fields the
corresponding interface declares. -/
inductive ChangedArgs where
  | sectionsInserted (kind : SectionKind) (index : Int) (span : Int)
  | sectionsRemoved (kind : SectionKind) (index : Int) (span : Int)
  | sectionsMoved (kind : SectionKind) (fromIndex : Int) (toIndex : Int) (span : Int)
  | cellsChanged (rowIndex : Int) (colIndex : Int) (rowSpan : Int) (colSpan : Int)
  | modelChanged
deriving DecidableEq, Repr

/-- The five variant names of the change-event union. -/
inductive ChangedVariant where
  | sectionsInserted
  | sectionsRemoved
  | sectionsMoved
  | cellsChanged
  | modelChanged
deriving DecidableEq, Repr

/-- The discriminant of a change-event value: the variant its `type` tag
selects. -/
def ChangedArgs.variantOf : ChangedArgs → ChangedVariant
  | .sectionsInserted .. => .sectionsInserted
  | .sectionsRemoved .. => .sectionsRemoved
  | .sectionsMoved .. => .sectionsMoved
  | .cellsChanged .. => .cellsChanged
  | .modelChanged => .modelChanged

/-- The span invariant on change events: `span ≥ 1` for the insert, remove and
move variants, `rowSpan ≥ 1 ∧ colSpan ≥ 1` for cells-changed. -/
def ChangedArgs.spanOK : ChangedArgs → Bool
  | .sectionsInserted _ _ span => decide (1 ≤ span)
  | .sectionsRemoved _ _ span => decide (1 ≤ span)
  | .sectionsMoved _ _ _ span => decide (1 ≤ span)
  | .cellsChanged _ _ rowSpan colSpan => decide (1 ≤ rowSpan) && decide (1 ≤ colSpan)
  | .modelChanged => true

/-- Modelled from the spec: the `@phosphor/signaling` `Signal` primitive is an
external collaborator not under src/ — per the spec it is a synchronous,
single-producer, multi-consumer channel with ordered delivery, carrying a
fixed sender and a list of attached observers. Observers are abstract
identifiers of type `O`. -/
structure Signal (S A O : Type) where
  sender : S
  observers : List O

/-- One synchronous delivery of an emission: which observer was invoked, with
which sender and which args. -/
structure Delivery (S A O : Type) where
  observer : O
  sender : S
  args : A

/-- Modelled from the spec: `Signal.emit(args)` delivers `(sender, args)` to
every currently attached observer, once each, in attachment order. -/
def Signal.emit {S A O : Type} (sig : Signal S A O) (args : A) : List (Delivery S A O) :=
  sig.observers.map (fun o => { observer := o, sender := sig.sender, args := args })

/-- State of the abstract `DataModel` base class: its own identity (the
`this` passed as sender to `new Signal(this)`) and the private `_changed`
signal. The abstract members rowCount/colCount/data live in subclasses and
carry no state here. -/
structure DataModel (M O : Type) where
  self : M
  changedSig : Signal M ChangedArgs O

/-- Construction of a `DataModel`: the private `_changed` field is initialized
once to a fresh signal whose sender is the model itself, with no observers. -/
def DataModel.create {M O : Type} (self : M) : DataModel M O :=
  { self := self, changedSig := { sender := self, observers := [] } }

/-- Attaching an observer to the model's changed signal (delivery order is
registration order, so the new observer goes last). -/
def DataModel.connect {M O : Type} (m : DataModel M O) (o : O) : DataModel M O :=
  { m with changedSig := { m.changedSig with observers := m.changedSig.observers ++ [o] } }

/-- The `changed` getter: returns the private `_changed` signal. -/
def DataModel.changed {M O : Type} (m : DataModel M O) : Signal M ChangedArgs O :=
  m.changedSig

/-- `DataModel.emitChanged(args)`: `this._changed.emit(args)` — one emission
on the private signal; the model state is untouched. -/
def DataModel.emitChanged {M O : Type} (m : DataModel M O) (args : ChangedArgs) :
    DataModel M O × List (Delivery M ChangedArgs O) :=
  (m, m.changedSig.emit args)

/-- Modelled from the spec: the concrete data models that construct and emit
change events are not under src/ (only the abstract emission channel is); the
spec forbids a conforming model from constructing a zero- or negative-span
event, treating it as an internal logic error fatal in debug builds. A
conforming emission therefore checks the span invariant and fails instead of
emitting when it is violated. -/
def emitChangedChecked {M O : Type} (m : DataModel M O) (args : ChangedArgs) :
    Except String (DataModel M O × List (Delivery M ChangedArgs O)) :=
  if args.spanOK then .ok (m.emitChanged args) else .error "zero or negative span in change event"

/-- The four cell categories of the addressing rule. -/
inductive CellCategory where
  | body
  | columnHeader
  | rowHeader
  | corner
deriving DecidableEq, Repr

/-- Modelled from the spec: the cell addressing rule is stated in src/ only as
the documented contract on `IDataModel.data` (a `row` index `< 0` is a column
header cell, a `col` index `< 0` a row header cell, both `< 0` the corner
cell); no executable classifier exists under src/. -/
def cellCategory (row col : Int) : CellCategory :=
  if 0 ≤ row then
    if 0 ≤ col then .body else .rowHeader
  else
    if 0 ≤ col then .columnHeader else .corner

/-- A concrete title over a unit owner in its default state, used to evaluate
the theorems on explicit inputs. -/
def t0 : Title Unit :=
  { owner := ()
    label := ""
    mnemonic := -1
    icon := ""
    caption := ""
    className := ""
    closable := false
    dataset := [] }

/-- A concrete data model over a unit identity with a single attached
observer. -/
def m0 : DataModel Unit Nat :=
  { self := (), changedSig := { sender := (), observers := [0] } }

/-- A concrete change event: three rows inserted at index 2. -/
def a0 : ChangedArgs := .sectionsInserted .rows 2 3

/-- Concrete constructor options with one falsy and one truthy dataset
entry. -/
def opts0 : Title.IOptions Unit :=
  { owner := (), dataset := some [("a", ""), ("b", "x")] }

/-!
Helper lemmas about the dataset operations
-/

theorem jsOrEmpty_some (v : String) : jsOrEmpty (some v) = v := by
  unfold jsOrEmpty
  split <;> simp_all

theorem jsOrEmpty_none : jsOrEmpty none = "" := rfl

theorem dsLookup_dsInsert_self (d : List (String × String)) (k v : String) :
    dsLookup (dsInsert d k v) k = some v := by
  induction d with
  | nil => simp [dsInsert, dsLookup]
  | cons kv rest ih =>
    by_cases h : kv.1 = k
    · simp [dsInsert, h, dsLookup]
    · simp [dsInsert, h, dsLookup, ih]

theorem dsLookup_dsInsert_ne (d : List (String × String)) (k v k' : String)
    (h : k' ≠ k) : dsLookup (dsInsert d k v) k' = dsLookup d k' := by
  have h2 : ¬(k = k') := fun hh => h hh.symm
  induction d with
  | nil => simp [dsInsert, dsLookup, h2]
  | cons kv rest ih =>
    by_cases hk : kv.1 = k
    · simp [dsInsert, hk, dsLookup, h2]
    · by_cases hk' : kv.1 = k'
      · simp [dsInsert, hk, dsLookup, hk', h]
      · simp [dsInsert, hk, dsLookup, hk', ih]

theorem dsLookup_dsErase_self (d : List (String × String)) (k : String) :
    dsLookup (dsErase d k) k = none := by
  induction d with
  | nil => simp [dsErase, dsLookup]
  | cons kv rest ih =>
    by_cases h : kv.1 = k
    · simp [dsErase, h, ih]
    · simp [dsErase, h, dsLookup, ih]

theorem dsLookup_dsErase_ne (d : List (String × String)) (k k' : String)
    (h : k' ≠ k) : dsLookup (dsErase d k) k' = dsLookup d k' := by
  induction d with
  | nil => simp [dsErase]
  | cons kv rest ih =>
    have h2 : ¬(k = k') := fun hh => h hh.symm
    by_cases hk : kv.1 = k
    · simp [dsErase, hk, dsLookup, h2, ih]
    · by_cases hk' : kv.1 = k'
      · simp [dsErase, hk, dsLookup, hk', h]
      · simp [dsErase, hk, dsLookup, hk', ih]

theorem dsLookup_eq_none_of_not_mem (d : List (String × String)) (k : String)
    (h : k ∉ d.map Prod.fst) : dsLookup d k = none := by
  induction d with
  | nil => rfl
  | cons kv rest ih =>
    simp only [List.map_cons, List.mem_cons] at h
    push_neg at h
    have h1 : ¬(kv.1 = k) := fun hh => h.1 hh.symm
    simp [dsLookup, h1, ih h.2]

theorem updateLoop_flag (vs : List (String × String)) (d : List (String × String)) (c : Bool) :
    (updateLoop d c vs).2 = (c || vs.any fun kv => kv.2 != jsOrEmpty (dsLookup d kv.1)) := by
  induction vs generalizing d c with
  | nil => simp [updateLoop]
  | cons kv rest ih =>
    simp only [updateLoop]
    by_cases h : kv.2 = jsOrEmpty (dsLookup d kv.1)
    · rw [if_pos h, ih]
      simp [List.any_cons, h]
    · rw [if_neg h]
      have hf : (kv.2 != jsOrEmpty (dsLookup d kv.1)) = true := bne_iff_ne.mpr h
      by_cases hv : kv.2 = ""
      · rw [if_neg (by simp [hv]), ih]
        simp [List.any_cons, hf]
      · rw [if_pos hv, ih]
        simp [List.any_cons, hf]

theorem updateLoop_frame (vs : List (String × String)) (d : List (String × String)) (c : Bool)
    (k : String) (h : k ∉ vs.map Prod.fst) :
    dsLookup (updateLoop d c vs).1 k = dsLookup d k := by
  induction vs generalizing d c with
  | nil => simp [updateLoop]
  | cons kv rest ih =>
    simp only [List.map_cons, List.mem_cons] at h
    push_neg at h
    have hne : k ≠ kv.1 := h.1
    have ih' : ∀ d' c', dsLookup (updateLoop d' c' rest).1 k = dsLookup d' k :=
      fun d' c' => ih d' c' h.2
    simp only [updateLoop]
    by_cases heq : kv.2 = jsOrEmpty (dsLookup d kv.1)
    · rw [if_pos heq, ih']
    · rw [if_neg heq]
      by_cases hv : kv.2 = ""
      · rw [if_neg (by simp [hv]), ih', dsLookup_dsErase_ne _ _ _ hne]
      · rw [if_pos hv, ih', dsLookup_dsInsert_ne _ _ _ _ hne]

theorem updateLoop_applies (vs : List (String × String)) (d : List (String × String)) (c : Bool)
    (hnd : (vs.map Prod.fst).Nodup) :
    ∀ kv ∈ vs, jsOrEmpty (dsLookup (updateLoop d c vs).1 kv.1) = kv.2 := by
  induction vs generalizing d c with
  | nil =>
    intro kv hkv
    cases hkv
  | cons a rest ih =>
    simp only [List.map_cons, List.nodup_cons] at hnd
    intro kv hkv
    rcases List.mem_cons.mp hkv with rfl | hmem
    · by_cases heq : kv.2 = jsOrEmpty (dsLookup d kv.1)
      · have hstep : updateLoop d c (kv :: rest) = updateLoop d c rest := by
          simp only [updateLoop]
          rw [if_pos heq]
        rw [hstep, updateLoop_frame rest d c kv.1 hnd.1]
        exact heq.symm
      · by_cases hv : kv.2 = ""
        · have hstep : updateLoop d c (kv :: rest) = updateLoop (dsErase d kv.1) true rest := by
            simp only [updateLoop]
            rw [if_neg heq, if_neg (by simp [hv])]
          rw [hstep, updateLoop_frame rest _ true kv.1 hnd.1, dsLookup_dsErase_self,
            jsOrEmpty_none, hv]
        · have hstep : updateLoop d c (kv :: rest) = updateLoop (dsInsert d kv.1 kv.2) true rest := by
            simp only [updateLoop]
            rw [if_neg heq, if_pos hv]
          rw [hstep, updateLoop_frame rest _ true kv.1 hnd.1, dsLookup_dsInsert_self,
            jsOrEmpty_some]
    · by_cases heq : a.2 = jsOrEmpty (dsLookup d a.1)
      · have hstep : updateLoop d c (a :: rest) = updateLoop d c rest := by
          simp only [updateLoop]
          rw [if_pos heq]
        rw [hstep]
        exact ih d c hnd.2 kv hmem
      · by_cases hv : a.2 = ""
        · have hstep : updateLoop d c (a :: rest) = updateLoop (dsErase d a.1) true rest := by
            simp only [updateLoop]
            rw [if_neg heq, if_neg (by simp [hv])]
          rw [hstep]
          exact ih _ true hnd.2 kv hmem
        · have hstep : updateLoop d c (a :: rest) = updateLoop (dsInsert d a.1 a.2) true rest := by
            simp only [updateLoop]
            rw [if_neg heq, if_pos hv]
          rw [hstep]
          exact ih _ true hnd.2 kv hmem

theorem dsLookup_initDataset (l : List (String × String)) (d : List (String × String))
    (k : String) (hnd : (l.map Prod.fst).Nodup) :
    dsLookup (initDataset d l) k =
      match dsLookup l k with
      | some v => if v = "" then dsLookup d k else some v
      | none => dsLookup d k := by
  induction l generalizing d with
  | nil => simp [initDataset, dsLookup]
  | cons a rest ih =>
    simp only [List.map_cons, List.nodup_cons] at hnd
    by_cases hv : a.2 = ""
    · have hstep : initDataset d (a :: rest) = initDataset d rest := by
        simp only [initDataset]
        rw [if_neg (by simp [hv])]
      rw [hstep, ih d hnd.2]
      by_cases hk : a.1 = k
      · have hrest : dsLookup rest k = none := by
          apply dsLookup_eq_none_of_not_mem
          rw [← hk]
          exact hnd.1
        simp [dsLookup, hk, hrest, hv]
      · simp [dsLookup, hk]
    · have hstep : initDataset d (a :: rest) = initDataset (dsInsert d a.1 a.2) rest := by
        simp only [initDataset]
        rw [if_pos hv]
      rw [hstep, ih _ hnd.2]
      by_cases hk : a.1 = k
      · have hrest : dsLookup rest k = none := by
          apply dsLookup_eq_none_of_not_mem
          rw [← hk]
          exact hnd.1
        rw [← hk, dsLookup_dsInsert_self]
        simp [dsLookup, hk, hrest, hv]
      · have hne : k ≠ a.1 := fun hh => hk hh.symm
        rw [dsLookup_dsInsert_ne _ _ _ _ hne]
        simp [dsLookup, hk]

theorem dsLookup_mem (d : List (String × String)) (k w : String)
    (h : dsLookup d k = some w) : ∃ kv ∈ d, kv.2 = w := by
  induction d with
  | nil => cases h
  | cons kv rest ih =>
    by_cases hk : kv.1 = k
    · simp only [dsLookup, if_pos hk, Option.some.injEq] at h
      exact ⟨kv, List.mem_cons_self kv rest, h⟩
    · simp only [dsLookup, if_neg hk] at h
      rcases ih h with ⟨kv', hm, he⟩
      exact ⟨kv', List.mem_cons_of_mem kv hm, he⟩

/-!
The claims
-/

/-- C1: every `Title` field setter (label, mnemonic, icon, caption,
className, closable) is equality-gated: assigning the field's current value
emits no changed notification and leaves the state unchanged, while assigning
a different value updates that field and emits exactly one changed
notification. -/
theorem C1 {T : Type} (t : Title T) :
    (∀ v : String, (v = t.label → t.setLabel v = (t, 0)) ∧
      (v ≠ t.label → t.setLabel v = ({ t with label := v }, 1))) ∧
    (∀ v : Int, (v = t.mnemonic → t.setMnemonic v = (t, 0)) ∧
      (v ≠ t.mnemonic → t.setMnemonic v = ({ t with mnemonic := v }, 1))) ∧
    (∀ v : String, (v = t.icon → t.setIcon v = (t, 0)) ∧
      (v ≠ t.icon → t.setIcon v = ({ t with icon := v }, 1))) ∧
    (∀ v : String, (v = t.caption → t.setCaption v = (t, 0)) ∧
      (v ≠ t.caption → t.setCaption v = ({ t with caption := v }, 1))) ∧
    (∀ v : String, (v = t.className → t.setClassName v = (t, 0)) ∧
      (v ≠ t.className → t.setClassName v = ({ t with className := v }, 1))) ∧
    (∀ v : Bool, (v = t.closable → t.setClosable v = (t, 0)) ∧
      (v ≠ t.closable → t.setClosable v = ({ t with closable := v }, 1))) := by
  refine ⟨fun v => ⟨fun h => ?_, fun h => ?_⟩, fun v => ⟨fun h => ?_, fun h => ?_⟩,
      fun v => ⟨fun h => ?_, fun h => ?_⟩, fun v => ⟨fun h => ?_, fun h => ?_⟩,
      fun v => ⟨fun h => ?_, fun h => ?_⟩, fun v => ⟨fun h => ?_, fun h => ?_⟩⟩ <;>
    simp only [Title.setLabel, Title.setMnemonic, Title.setIcon, Title.setCaption,
      Title.setClassName, Title.setClosable] <;>
    first
      | rw [if_pos h.symm]
      | rw [if_neg (fun hh => h hh.symm)]

/-- Witness for C1 at a concrete title: a differing label write updates and
emits once, a same-value closable write is a silent no-op. -/
theorem C1_witness :
    Title.setLabel t0 "x" = ({ t0 with label := "x" }, 1) ∧
    Title.setClosable t0 false = (t0, 0) := by
  have h := C1 t0
  exact ⟨(h.1 "x").2 (by decide), (h.2.2.2.2.2 false).1 (by decide)⟩

/-- C2: `updateData` over a mapping (distinct keys) applies every entry and
emits exactly one changed notification when at least one entry differs from
the current read of its key (absent keys reading as the empty string), and
zero notifications when no entry differs. -/
theorem C2 {T : Type} (t : Title T) (values : List (String × String))
    (hnd : (values.map Prod.fst).Nodup) :
    (t.updateData values).2 =
      (if values.any (fun kv => kv.2 != t.getData kv.1) then 1 else 0) ∧
    ∀ kv ∈ values, (t.updateData values).1.getData kv.1 = kv.2 := by
  constructor
  · simp only [Title.updateData]
    rw [updateLoop_flag, Bool.false_or]
    rfl
  · intro kv hkv
    simp only [Title.updateData, Title.getData]
    exact updateLoop_applies values t.dataset false hnd kv hkv

/-- Witness for C2: a batch with one changed and one unchanged key emits once
and applies the change. -/
theorem C2_witness :
    (Title.updateData t0 [("a", "1"), ("b", "")]).2 = 1 ∧
    (Title.updateData t0 [("a", "1"), ("b", "")]).1.getData "a" = "1" := by
  have h := C2 t0 [("a", "1"), ("b", "")] (by decide)
  refine ⟨?_, h.2 ("a", "1") (by decide)⟩
  rw [h.1]
  decide

/-- C3: the cell addressing rule is a pure total classification of integer
pairs: both coordinates non-negative is a body cell, negative row with
non-negative column a column-header cell, non-negative row with negative
column a row-header cell, and any pair with both coordinates negative — of
whatever magnitude — the corner cell. -/
theorem C3 (row col : Int) :
    (0 ≤ row → 0 ≤ col → cellCategory row col = CellCategory.body) ∧
    (row < 0 → 0 ≤ col → cellCategory row col = CellCategory.columnHeader) ∧
    (0 ≤ row → col < 0 → cellCategory row col = CellCategory.rowHeader) ∧
    (row < 0 → col < 0 → cellCategory row col = CellCategory.corner) := by
  refine ⟨fun h1 h2 => ?_, fun h1 h2 => ?_, fun h1 h2 => ?_, fun h1 h2 => ?_⟩
  · simp [cellCategory, h1, h2]
  · simp [cellCategory, not_le.mpr h1, h2]
  · simp [cellCategory, h1, not_le.mpr h2]
  · simp [cellCategory, not_le.mpr h1, not_le.mpr h2]

/-- Witness for C3: a doubly negative pair far from (-1, -1) is still the
corner. -/
theorem C3_witness : cellCategory (-5) (-7) = CellCategory.corner :=
  (C3 (-5) (-7)).2.2.2 (by decide) (by decide)

theorem mem_emit_fields {S A O : Type} (sig : Signal S A O) (args : A)
    (e : Delivery S A O) (h : e ∈ sig.emit args) :
    e.sender = sig.sender ∧ e.args = args := by
  unfold Signal.emit at h
  rcases List.mem_map.mp h with ⟨o, _, rfl⟩
  exact ⟨rfl, rfl⟩

/-- C4: a conforming emission never constructs or delivers a change event
with a zero or negative span: whenever the checked emission succeeds, the
emitted args satisfy the span invariant, and so does every delivered event;
an invalid span is rejected instead of emitted. -/
theorem C4 {M O : Type} (m : DataModel M O) (args : ChangedArgs)
    (out : DataModel M O × List (Delivery M ChangedArgs O))
    (h : emitChangedChecked m args = .ok out) :
    args.spanOK = true ∧ ∀ e ∈ out.2, e.args.spanOK = true := by
  unfold emitChangedChecked at h
  by_cases hok : args.spanOK = true
  · rw [if_pos hok] at h
    cases h
    refine ⟨hok, fun e he => ?_⟩
    have hf := mem_emit_fields m.changedSig args e he
    rw [hf.2]
    exact hok
  · rw [if_neg hok] at h
    cases h

/-- Witness for C4: a rows-inserted event of span 3 passes the checked
emission and satisfies the span invariant. -/
theorem C4_witness : ChangedArgs.spanOK a0 = true :=
  (C4 m0 a0 (m0, [{ observer := 0, sender := (), args := a0 }]) rfl).1

/-- C5: `getData` on an absent key returns the empty string rather than a
missing-key error; `setData` with the empty string removes the key, so it
reads back as the empty string; and after `setData(key, value)` the key reads
back as `value` for every string value. The removal clauses assume the
dataset invariant that empty strings are never stored (which every reachable
dataset satisfies). -/
theorem C5 {T : Type} (t : Title T) (k v : String) (hwf : dsWF t.dataset) :
    (dsLookup t.dataset k = none → t.getData k = "") ∧
    dsLookup (t.setData k "").1.dataset k = none ∧
    (t.setData k "").1.getData k = "" ∧
    (t.setData k v).1.getData k = v := by
  have herase : dsLookup (t.setData k "").1.dataset k = none := by
    unfold Title.setData
    by_cases h0 : "" = jsOrEmpty (dsLookup t.dataset k)
    · rw [if_pos h0]
      cases hc : dsLookup t.dataset k with
      | none => rfl
      | some w =>
        exfalso
        rcases dsLookup_mem t.dataset k w hc with ⟨kv, hm, he⟩
        have hw : w ≠ "" := he ▸ hwf kv hm
        rw [hc, jsOrEmpty_some] at h0
        exact hw h0.symm
    · rw [if_neg h0, if_neg (by simp)]
      exact dsLookup_dsErase_self t.dataset k
  refine ⟨fun h => ?_, herase, ?_, ?_⟩
  · simp [Title.getData, h, jsOrEmpty]
  · simp [Title.getData, herase, jsOrEmpty]
  · by_cases h : v = jsOrEmpty (dsLookup t.dataset k)
    · unfold Title.setData
      rw [if_pos h]
      exact h.symm
    · unfold Title.setData
      rw [if_neg h]
      by_cases hv : v ≠ ""
      · rw [if_pos hv]
        simp [Title.getData, dsLookup_dsInsert_self, jsOrEmpty_some]
      · rw [if_neg hv]
        push_neg at hv
        simp [Title.getData, dsLookup_dsErase_self, jsOrEmpty, hv]

/-- Witness for C5: on the default title, an absent key reads as empty and a
write reads back. -/
theorem C5_witness :
    (Title.setData t0 "k" "w").1.getData "k" = "w" ∧ Title.getData t0 "k" = "" := by
  have h := C5 t0 "k" "w" (by simp [dsWF, t0])
  exact ⟨h.2.2.2, h.1 (by decide)⟩

/-- C6: every change-event value belongs to exactly one of the five variants
given by its discriminant, each carrying exactly the declared fields —
sections-inserted (kind, index, span), sections-removed (kind, index, span),
sections-moved (kind, fromIndex, toIndex, span), cells-changed (rowIndex,
colIndex, rowSpan, colSpan) and model-changed (no fields) — and no other
shape is representable. -/
theorem C6 (a : ChangedArgs) :
    (a.variantOf = ChangedVariant.sectionsInserted ↔
      ∃ kind index span, a = ChangedArgs.sectionsInserted kind index span) ∧
    (a.variantOf = ChangedVariant.sectionsRemoved ↔
      ∃ kind index span, a = ChangedArgs.sectionsRemoved kind index span) ∧
    (a.variantOf = ChangedVariant.sectionsMoved ↔
      ∃ kind fromIndex toIndex span,
        a = ChangedArgs.sectionsMoved kind fromIndex toIndex span) ∧
    (a.variantOf = ChangedVariant.cellsChanged ↔
      ∃ rowIndex colIndex rowSpan colSpan,
        a = ChangedArgs.cellsChanged rowIndex colIndex rowSpan colSpan) ∧
    (a.variantOf = ChangedVariant.modelChanged ↔ a = ChangedArgs.modelChanged) := by
  cases a <;> simp [ChangedArgs.variantOf]

/-- C7: `emitChanged(args)` performs exactly one emission on the signal the
`changed` getter returns — one synchronous delivery per attached observer, in
order, with the model itself as sender and the args passed through unmodified
— and leaves the model state (hence the signal the getter returns) unchanged. -/
theorem C7 {M O : Type} (m : DataModel M O) (args : ChangedArgs)
    (h : m.changedSig.sender = m.self) :
    (m.emitChanged args).1 = m ∧
    (m.emitChanged args).1.changed = m.changed ∧
    (m.emitChanged args).2 = m.changed.observers.map
      (fun o => { observer := o, sender := m.self, args := args }) ∧
    (m.emitChanged args).2.length = m.changed.observers.length := by
  refine ⟨rfl, rfl, ?_, by simp [DataModel.emitChanged, Signal.emit, DataModel.changed]⟩
  unfold DataModel.emitChanged Signal.emit DataModel.changed
  rw [h]

/-- Witness for C7: the concrete model with one observer delivers exactly one
event carrying the model as sender and the args unmodified. -/
theorem C7_witness :
    (DataModel.emitChanged m0 a0).1 = m0 ∧
    (DataModel.emitChanged m0 a0).2 = [{ observer := 0, sender := (), args := a0 }] := by
  have h := C7 m0 a0 rfl
  exact ⟨h.1, h.2.2.1.trans rfl⟩

/-- C8: frame property of the `Title` operations: each setter changes at most
the single field it addresses (`setData`/`updateData` at most the dataset),
every other field keeps its value, and the owner reference — fixed by the
constructor from the options — is never changed by any operation. -/
theorem C8 {T : Type} (t : Title T) (s : String) (n : Int) (b : Bool)
    (k v : String) (vals : List (String × String)) (opts : Title.IOptions T) :
    (t.setLabel s).1 = { t with label := (t.setLabel s).1.label } ∧
    (t.setMnemonic n).1 = { t with mnemonic := (t.setMnemonic n).1.mnemonic } ∧
    (t.setIcon s).1 = { t with icon := (t.setIcon s).1.icon } ∧
    (t.setCaption s).1 = { t with caption := (t.setCaption s).1.caption } ∧
    (t.setClassName s).1 = { t with className := (t.setClassName s).1.className } ∧
    (t.setClosable b).1 = { t with closable := (t.setClosable b).1.closable } ∧
    (t.setData k v).1 = { t with dataset := (t.setData k v).1.dataset } ∧
    (t.updateData vals).1 = { t with dataset := (t.updateData vals).1.dataset } ∧
    (t.setLabel s).1.owner = t.owner ∧
    (t.setData k v).1.owner = t.owner ∧
    (t.updateData vals).1.owner = t.owner ∧
    (Title.ofOptions opts).1.owner = opts.owner := by
  refine ⟨?_, ?_, ?_, ?_, ?_, ?_, ?_, rfl, ?_, ?_, rfl, rfl⟩ <;>
    simp only [Title.setLabel, Title.setMnemonic, Title.setIcon, Title.setCaption,
      Title.setClassName, Title.setClosable, Title.setData] <;>
    (try split) <;> (try split) <;> rfl

/-- C9: `updateData` with a single-entry mapping is observationally equivalent
to `setData` on that entry: the resulting title state and the number of
changed notifications coincide. -/
theorem C9 {T : Type} (t : Title T) (k v : String) :
    t.updateData [(k, v)] = t.setData k v := by
  have hloop : updateLoop t.dataset false [(k, v)] =
      (if v = jsOrEmpty (dsLookup t.dataset k) then (t.dataset, false)
       else if v ≠ "" then (dsInsert t.dataset k v, true)
       else (dsErase t.dataset k, true)) := by
    simp only [updateLoop]
  simp only [Title.updateData, Title.setData, hloop]
  by_cases h : v = jsOrEmpty (dsLookup t.dataset k)
  · rw [if_pos h, if_pos h]
    rfl
  · rw [if_neg h, if_neg h]
    by_cases hv : v ≠ ""
    · rw [if_pos hv, if_pos hv]
      rfl
    · rw [if_neg hv, if_neg hv]
      rfl

/-- C10: constructing a `Title` emits no changed notification whatever
options are supplied, and initial dataset entries with an empty-string value
are not stored: every key reads back exactly as the truthy initial entries
dictate, with falsy entries and absent keys both reading as the empty
string. -/
theorem C10 {T : Type} (opts : Title.IOptions T)
    (hnd : ((opts.dataset.getD []).map Prod.fst).Nodup) :
    (Title.ofOptions opts).2 = 0 ∧
    (∀ k, (Title.ofOptions opts).1.getData k =
      jsOrEmpty (dsLookup (opts.dataset.getD []) k)) ∧
    (∀ k, dsLookup (opts.dataset.getD []) k = some "" →
      dsLookup (Title.ofOptions opts).1.dataset k = none) := by
  refine ⟨rfl, fun k => ?_, fun k h => ?_⟩
  · simp only [Title.ofOptions, Title.getData]
    rw [dsLookup_initDataset _ _ _ hnd]
    cases hc : dsLookup (opts.dataset.getD []) k with
    | none => rfl
    | some w =>
      by_cases hw : w = ""
      · simp [hw, dsLookup, jsOrEmpty]
      · simp [hw]
  · simp only [Title.ofOptions]
    rw [dsLookup_initDataset _ _ _ hnd, h]
    simp [dsLookup]

/-- Witness for C10: constructing with a falsy and a truthy entry emits
nothing, the falsy entry is not stored and reads back empty. -/
theorem C10_witness :
    (Title.ofOptions opts0).2 = 0 ∧
    (Title.ofOptions opts0).1.getData "a" = "" ∧
    dsLookup (Title.ofOptions opts0).1.dataset "a" = none := by
  have h := C10 opts0 (by decide)
  refine ⟨h.1, ?_, h.2.2 "a" (by decide)⟩
  rw [h.2.1 "a"]
  decide
